import Mathlib

/-
Verification of the aivory agent-c core against its specification.
Shallow embedding of the C sources:
  src/transport/websocket.c  (queue, url parsing, websocket state machine)
  src/capture/backtrace.c    (escaping, fingerprinting)
  src/capture/signal_handler.c
  src/agent.c                (init, report builder, sampling)
C strings are modelled as List Char (a C string cannot contain NUL, so the
NUL terminator needs no representation); raw bytes are modelled as Nat
values below 256; machine 64-bit arithmetic is Nat modulo 2 to the 64.
malloc is assumed to succeed (allocation failure is environmental).
-/

/- ===== Constants from include/aivory/config.h ===== -/

def AIVORY_MESSAGE_QUEUE_SIZE : Nat := 100

def AIVORY_MAX_RECONNECT_ATTEMPTS : Nat := 10

def AIVORY_DEFAULT_MAX_STRING_LENGTH : Nat := 1000

/- ===== Bounded FIFO queue (websocket.c, queue_push / queue_pop) =====
The queue is the list of stored records, head first (oldest first).
The mutex guarding each operation is not represented: each operation is
a single atomic step on the list. -/

/-- websocket.c queue_push: if the queue is full (count at max_size and a
head exists) the oldest entry is evicted, then the new entry is appended
at the tail. -/
def queue_push (q : List String) (json : String) : List String :=
  let q1 := if AIVORY_MESSAGE_QUEUE_SIZE ≤ q.length ∧ q ≠ [] then q.drop 1 else q
  q1 ++ [json]

/-- websocket.c queue_pop: removes and returns the head entry, or none on
an empty queue (which it leaves unchanged). -/
def queue_pop (q : List String) : Option String × List String :=
  match q with
  | [] => (none, [])
  | x :: rest => (some x, rest)

inductive QueueOp where
  | push (json : String)
  | pop
deriving DecidableEq

/-- Run an interleaving of push and pop operations from a starting queue. -/
def queue_run : List QueueOp → List String → List String
  | [], q => q
  | QueueOp.push j :: ops, q => queue_run ops (queue_push q j)
  | QueueOp.pop :: ops, q => queue_run ops (queue_pop q).2

def numPush : List QueueOp → Nat
  | [] => 0
  | QueueOp.push _ :: ops => numPush ops + 1
  | QueueOp.pop :: ops => numPush ops

def numPop : List QueueOp → Nat
  | [] => 0
  | QueueOp.push _ :: ops => numPop ops
  | QueueOp.pop :: ops => numPop ops + 1

def pushedVals : List QueueOp → List String
  | [] => []
  | QueueOp.push j :: ops => j :: pushedVals ops
  | QueueOp.pop :: ops => pushedVals ops

/-- True when, along the run, every pop finds a nonempty queue. -/
def popsNonEmpty : List QueueOp → List String → Bool
  | [], _ => true
  | QueueOp.push j :: ops, q => popsNonEmpty ops (queue_push q j)
  | QueueOp.pop :: ops, q => !q.isEmpty && popsNonEmpty ops (queue_pop q).2

/-- True when, along the run, no push ever finds a full queue (so no
entry is ever evicted). -/
def noOverflow : List QueueOp → List String → Bool
  | [], _ => true
  | QueueOp.push j :: ops, q =>
      decide (q.length < AIVORY_MESSAGE_QUEUE_SIZE) && noOverflow ops (queue_push q j)
  | QueueOp.pop :: ops, q => noOverflow ops (queue_pop q).2

/-- The last n elements of a list (the most recently appended ones). -/
def lastN (n : Nat) (l : List α) : List α := l.drop (l.length - n)

/- ===== Fingerprinting (backtrace.c, aivory_calculate_fingerprint) =====
hash is a C unsigned long, 64 bits on the reference platform; each input
character is a C char, added to the hash after integer promotion.  On a
signed-char platform a byte b at 128 or above is promoted to b - 256,
which joins the unsigned sum as b + 2^64 - 256.  signedChar selects the
platform char signedness. -/

def U64 : Nat := 2 ^ 64

/-- One step of the loop body hash = ((hash << 5) + hash) + c, on the
64-bit unsigned hash, with c the promoted value of the input char. -/
def hash_step (signedChar : Bool) (h b : Nat) : Nat :=
  (h * 33 + (if signedChar && decide (128 ≤ b) then b + (U64 - 256) else b)) % U64

def hash_bytes (signedChar : Bool) : Nat → List Nat → Nat
  | h, [] => h
  | h, b :: bs => hash_bytes signedChar (hash_step signedChar h b) bs

/-- Lowercase hexadecimal digit for a value below 16 (snprintf %x). -/
def hex_digit (n : Nat) : Char :=
  if n < 10 then Char.ofNat (48 + n) else Char.ofNat (87 + n)

/-- snprintf "%016lx": 16 lowercase hex digits, zero padded, most
significant first. -/
def to_hex16 (h : Nat) : List Char :=
  (List.range 16).map (fun i => hex_digit (h / 16 ^ (15 - i) % 16))

/-- backtrace.c aivory_calculate_fingerprint: djb2-style hash (init 5381,
times-33) over the type label then the first 500 bytes of the encoded
backtrace, formatted %016lx.  A NULL pointer argument corresponds to the
empty list (the corresponding loop is skipped). -/
def aivory_calculate_fingerprint (signedChar : Bool) (type backtrace : List Nat) : List Char :=
  to_hex16 (hash_bytes signedChar (hash_bytes signedChar 5381 type) (backtrace.take 500))

/-- Modelled from the spec: the 33-multiply string hash initialized at
5381, h to h * 33 + b for each input byte b, on the 64-bit value. -/
def spec_hash : Nat → List Nat → Nat
  | h, [] => h
  | h, b :: bs => spec_hash ((h * 33 + b) % U64) bs

/-- Modelled from the spec: fingerprint over the type label followed by
the first 500 characters of the stack trace, 16 lowercase hex digits,
zero padded. -/
def spec_fingerprint (type backtrace : List Nat) : List Char :=
  to_hex16 (spec_hash 5381 (type ++ backtrace.take 500))

def lowercase_hex_chars : List Char := "0123456789abcdef".data

/- ===== Escape encoding (backtrace.c, escape_json_string) ===== -/

/-- backtrace.c escape_json_string: the switch over each input char. -/
def escape_json_string : List Char → List Char
  | [] => []
  | c :: rest =>
    if c = '"' then '\\' :: '"' :: escape_json_string rest
    else if c = '\\' then '\\' :: '\\' :: escape_json_string rest
    else if c = '\n' then '\\' :: 'n' :: escape_json_string rest
    else if c = '\r' then '\\' :: 'r' :: escape_json_string rest
    else if c = '\t' then '\\' :: 't' :: escape_json_string rest
    else c :: escape_json_string rest

/-- Modelled from the spec: the per-character replacement table; the five
named characters become two-character escapes, other bytes pass through. -/
def escape_char_spec (c : Char) : List Char :=
  if c = '"' then ['\\', '"']
  else if c = '\\' then ['\\', '\\']
  else if c = '\n' then ['\\', 'n']
  else if c = '\r' then ['\\', 'r']
  else if c = '\t' then ['\\', 't']
  else [c]

/-- Decoder for the escaped form: a backslash consumes the following
character and maps it back; everything else passes through. -/
def unescape_char (c : Char) : Char :=
  if c = 'n' then '\n'
  else if c = 'r' then '\r'
  else if c = 't' then '\t'
  else c

def unescape_json : List Char → List Char
  | [] => []
  | [c] => [c]
  | a :: b :: rest =>
    if a = '\\' then unescape_char b :: unescape_json rest
    else a :: unescape_json (b :: rest)

/- ===== Sampling (agent.c, aivory_should_sample) =====
sampling_rate is a C double; every finite double value is a rational and
the C comparisons agree with the rational ones, so the rate and the
pseudo-random draw rand() / RAND_MAX are modelled as rationals. -/

def aivory_should_sample (sampling_rate draw : ℚ) : Bool :=
  if 1 ≤ sampling_rate then true
  else if sampling_rate ≤ 0 then false
  else decide (draw < sampling_rate)

/- ===== Signal handler (signal_handler.c, signal_handler) =====
The handler body is modelled as the sequence of actions it performs,
together with the value of the g_handling_signal flag on return.
handling is the flag value on entry; agentOk is whether g_agent_ref is
set and the agent initialized; recordFits is whether snprintf reported a
length inside the 8192-byte buffer (the condition for the best-effort
send and the post-send sleep). -/

inductive HandlerAct where
  | setFlag
  | captureBacktrace
  | computeFingerprint
  | buildRecord
  | sendRecord
  | sleepGrace
  | restoreAndReraise
  | exitNow (code : Nat)
deriving DecidableEq

def signal_handler (handling agentOk recordFits : Bool) (sig : Nat) :
    List HandlerAct × Bool :=
  if handling then ([HandlerAct.exitNow (128 + sig)], handling)
  else
    let body :=
      if agentOk then
        [HandlerAct.captureBacktrace, HandlerAct.computeFingerprint,
         HandlerAct.buildRecord] ++
        (if recordFits then [HandlerAct.sendRecord, HandlerAct.sleepGrace] else [])
      else []
    (HandlerAct.setFlag :: (body ++ [HandlerAct.restoreAndReraise]), true)

/- ===== Transport state machine (websocket.c, ws_callback and the
reconnect loop of ws_thread_func) =====
The mutable fields of ws_connection_t that the claims concern. -/

inductive ConnState where
  | disconnected
  | connecting
  | connected
  | authenticated
deriving DecidableEq

structure WsConn where
  state : ConnState
  authenticated : Bool
  should_stop : Bool
  reconnect_attempts : Nat
deriving DecidableEq

/-- Events acting on the connection record: the ws_callback cases
(connection established; a frame containing "registered"; an error frame
with auth_error or invalid_api_key; any other frame; connection error;
close) and one pass of the reconnect backoff path in ws_thread_func,
which increments reconnect_attempts. -/
inductive WsEvent where
  | established
  | receiveRegistered
  | receiveAuthError
  | receiveOther
  | connectionError
  | closed
  | backoffTick
deriving DecidableEq

def ws_step (c : WsConn) (e : WsEvent) : WsConn :=
  match e with
  | WsEvent.established => { c with state := ConnState.connected }
  | WsEvent.receiveRegistered =>
      { c with authenticated := true, state := ConnState.authenticated }
  | WsEvent.receiveAuthError => { c with should_stop := true }
  | WsEvent.receiveOther => c
  | WsEvent.connectionError =>
      { c with state := ConnState.disconnected, authenticated := false }
  | WsEvent.closed =>
      { c with state := ConnState.disconnected, authenticated := false }
  | WsEvent.backoffTick =>
      { c with reconnect_attempts := c.reconnect_attempts + 1 }

/-- ws_thread_func terminates the worker when, after the increment, the
attempt counter exceeds AIVORY_MAX_RECONNECT_ATTEMPTS. -/
def backoff_gives_up (c : WsConn) : Bool :=
  decide (AIVORY_MAX_RECONNECT_ATTEMPTS < (ws_step c WsEvent.backoffTick).reconnect_attempts)

/- ===== URL parsing (websocket.c, parse_url) ===== -/

/-- C isspace on the default locale, as consumed by atoi. -/
def c_isspace (c : Char) : Bool :=
  c = ' ' || c = '\t' || c = '\n' || c = '\x0b' || c = '\x0c' || c = '\r'

def atoi_digits : List Char → Nat → Nat
  | [], acc => acc
  | c :: rest, acc =>
    if c.isDigit then atoi_digits rest (acc * 10 + (c.toNat - 48)) else acc

/-- C atoi: optional whitespace, optional sign, leading digits; 0 when no
digits are present. -/
def atoi (s : List Char) : Int :=
  let s1 := s.dropWhile c_isspace
  if s1.head? = some '-' then -(atoi_digits (s1.drop 1) 0 : Int)
  else if s1.head? = some '+' then (atoi_digits (s1.drop 1) 0 : Int)
  else (atoi_digits s1 0 : Int)

/-- websocket.c parse_url, after the scheme has been stripped: p points
past "ws://" or "wss://", defPort and use_ssl were set by the scheme.
The host runs to the first colon, slash or end; a host of 256 bytes or
more overflows the 256-byte host buffer and fails with -1 (modelled as
none).  After an explicit colon, atoi reads the port and the scan skips
to the first slash.  The path is written through strncpy(path, p, 512)
followed by path[511] = 0, hence the take 511; without a leading slash
the initial default "/" is kept. -/
def parse_url_after_scheme (use_ssl : Bool) (defPort : Int) (p : List Char) :
    Option (List Char × Int × List Char × Bool) :=
  let host := p.takeWhile (fun c => !(c = ':' || c = '/'))
  if 256 ≤ host.length then none
  else
    let q := p.drop host.length
    let portAndRest : Int × List Char :=
      if q.head? = some ':' then
        (atoi (q.drop 1), (q.drop 1).dropWhile (fun c => !(c = '/')))
      else (defPort, q)
    let path :=
      if portAndRest.2.head? = some '/' then portAndRest.2.take 511 else "/".data
    some (host, portAndRest.1, path, use_ssl)

/-- websocket.c parse_url.  Returns (host, port, path, use_ssl), or none
on failure.  wss:// selects TLS with default port 443, ws:// plaintext
with default port 80; any other scheme is rejected with -1 (none). -/
def parse_url (url : List Char) : Option (List Char × Int × List Char × Bool) :=
  if List.isPrefixOf "wss://".data url then
    parse_url_after_scheme true 443 (url.drop 6)
  else if List.isPrefixOf "ws://".data url then
    parse_url_after_scheme false 80 (url.drop 5)
  else none

/-- The remaining-path component produced after an explicit :port, for
stating the port-override behavior: characters are skipped up to the
first slash; an explicit path is kept (truncated to 511 bytes), else /. -/
def path_after_port (rest : List Char) : List Char :=
  let r := rest.dropWhile (fun c => !(c = '/'))
  if r.head? = some '/' then r.take 511 else "/".data

/- ===== Agent initialization (agent.c, aivory_init) =====
The global g_agent and the resources init allocates.  newId and newHost
stand for the freshly generated agent id and hostname; wsOk is whether
aivory_ws_connect succeeded (its failure is tolerated: "Continue anyway,
will retry"). -/

structure AivoryConfig where
  api_key : Option (List Char)
  backend_url : List Char
  environment : List Char
  sampling_rate : ℚ
  max_capture_depth : Nat
  max_string_length : Nat
  max_collection_size : Nat
  debug : Bool
  capture_signals : Bool
deriving DecidableEq

structure AgentState where
  initialized : Bool
  config : Option AivoryConfig
  agent_id : Option (List Char)
  hostname : Option (List Char)
  custom_context : Option (List Char)
  user_json : Option (List Char)
  handlers_installed : Bool
  connection : Bool
deriving DecidableEq

/-- The zero-initialized global g_agent before any call. -/
def g_agent_zero : AgentState :=
  { initialized := false, config := none, agent_id := none, hostname := none,
    custom_context := none, user_json := none, handlers_installed := false,
    connection := false }

/-- agent.c aivory_init: rejects a second initialization, a NULL config,
and a NULL or empty API key, each with -1 and no state change; otherwise
copies the config, allocates the identity, installs handlers when
capture_signals is set, starts the transport, and returns 0 - without
ever validating backend_url. -/
def aivory_init (s : AgentState) (config : Option AivoryConfig)
    (newId newHost : List Char) (wsOk : Bool) : Int × AgentState :=
  if s.initialized then (-1, s)
  else
    match config with
    | none => (-1, s)
    | some cfg =>
      match cfg.api_key with
      | none => (-1, s)
      | some key =>
        if key = [] then (-1, s)
        else
          (0, { s with
                initialized := true,
                config := some cfg,
                agent_id := some newId,
                hostname := some newHost,
                handlers_installed := cfg.capture_signals,
                connection := wsOk })

/-- A missing or empty API key, in the sense of the aivory_init check. -/
def api_key_missing (cfg : AivoryConfig) : Prop :=
  cfg.api_key = none ∨ cfg.api_key = some []

instance (cfg : AivoryConfig) : Decidable (api_key_missing cfg) := by
  unfold api_key_missing; infer_instance

/-- ws_thread_func startup: parse_url is called on the configured URL;
on failure the thread prints "Invalid backend URL" and returns at once,
before any connect attempt; otherwise it enters the reconnect loop. -/
inductive WsThreadStart where
  | invalid_url
  | enter_loop (host : List Char) (port : Int) (path : List Char) (use_ssl : Bool)
deriving DecidableEq

def ws_thread_startup (backend_url : List Char) : WsThreadStart :=
  match parse_url backend_url with
  | none => WsThreadStart.invalid_url
  | some (h, port, path, ssl) => WsThreadStart.enter_loop h port path ssl

/- ===== Exception record builder (agent.c,
aivory_capture_error_with_context) =====
The snprintf format string, as a concatenation over List Char.  The
builder receives the already-resolved argument strings: message is the
C argument after its NULL default "", backtrace after its default "[]",
fingerprint after its default ""; timestampMs is the rendered %ld
millisecond timestamp.  file is the optional source file (its absence
drops the "file" context member), contextJson the optional caller
context. -/

def build_exception_json (agentId message fingerprint backtrace : List Char)
    (file contextJson : Option (List Char))
    (capturedAt environment platform arch timestampMs : List Char) : List Char :=
  "\x7b\"type\":\"exception\",\"payload\":\x7b\"id\":\"".data ++ agentId ++
  "\",\"exception_type\":\"Error\",\"message\":\"".data ++ message ++
  "\",\"fingerprint\":\"".data ++ fingerprint ++
  "\",\"stack_trace\":".data ++ backtrace ++
  ",\"local_variables\":\x7b\x7d,\"context\":\x7b".data ++
  (match file with
   | some f => "\"file\":\"".data ++ f ++ "\",".data
   | none => []) ++
  (match contextJson with
   | some ctx => ctx
   | none => []) ++
  "\x7d,\"captured_at\":\"".data ++ capturedAt ++
  "\",\"agent_id\":\"".data ++ agentId ++
  "\",\"environment\":\"".data ++ environment ++
  "\",\"runtime_info\":\x7b\"runtime\":\"c\",\"platform\":\"".data ++ platform ++
  "\",\"arch\":\"".data ++ arch ++
  "\"\x7d\x7d,\"timestamp\":".data ++ timestampMs ++
  "\x7d".data

/-- agent.c: the record is handed to aivory_ws_send_exception only when
the snprintf result len satisfies len > 0 and len < 65536 (len is the
full formatted length, so an oversized record is dropped, not sent). -/
def record_ships (json : List Char) : Bool :=
  decide (0 < json.length) && decide (json.length < 65536)

/-- The part of the built record that precedes the message field. -/
def build_exception_head (agentId : List Char) : List Char :=
  "\x7b\"type\":\"exception\",\"payload\":\x7b\"id\":\"".data ++ agentId ++
  "\",\"exception_type\":\"Error\",\"message\":\"".data

/-- The part of the built record that follows the message field. -/
def build_exception_tail (agentId fingerprint backtrace : List Char)
    (file contextJson : Option (List Char))
    (capturedAt environment platform arch timestampMs : List Char) : List Char :=
  "\",\"fingerprint\":\"".data ++ fingerprint ++
  "\",\"stack_trace\":".data ++ backtrace ++
  ",\"local_variables\":\x7b\x7d,\"context\":\x7b".data ++
  (match file with
   | some f => "\"file\":\"".data ++ f ++ "\",".data
   | none => []) ++
  (match contextJson with
   | some ctx => ctx
   | none => []) ++
  "\x7d,\"captured_at\":\"".data ++ capturedAt ++
  "\",\"agent_id\":\"".data ++ agentId ++
  "\",\"environment\":\"".data ++ environment ++
  "\",\"runtime_info\":\x7b\"runtime\":\"c\",\"platform\":\"".data ++ platform ++
  "\",\"arch\":\"".data ++ arch ++
  "\"\x7d\x7d,\"timestamp\":".data ++ timestampMs ++
  "\x7d".data

/- ===================================================================
   Helper lemmas
   =================================================================== -/

lemma queue_push_length_le (q : List String) (j : String)
    (h : q.length ≤ AIVORY_MESSAGE_QUEUE_SIZE) :
    (queue_push q j).length ≤ AIVORY_MESSAGE_QUEUE_SIZE := by
  unfold queue_push
  unfold AIVORY_MESSAGE_QUEUE_SIZE at *
  split
  · rename_i hc
    have hq : 0 < q.length := List.length_pos.2 hc.2
    simp only [List.length_append, List.length_drop, List.length_cons, List.length_nil]
    omega
  · rename_i hc
    simp only [List.length_append, List.length_cons, List.length_nil]
    rw [not_and_or] at hc
    rcases hc with hc | hc
    · omega
    · have hq : q = [] := not_not.1 hc
      subst hq
      simp

lemma queue_pop_length_le (q : List String) : (queue_pop q).2.length ≤ q.length := by
  cases q <;> simp [queue_pop]

lemma queue_run_length_le (ops : List QueueOp) :
    ∀ q : List String, q.length ≤ AIVORY_MESSAGE_QUEUE_SIZE →
      (queue_run ops q).length ≤ AIVORY_MESSAGE_QUEUE_SIZE := by
  induction ops with
  | nil => intro q h; simpa [queue_run] using h
  | cons op ops ih =>
    intro q h
    cases op with
    | push j => exact ih _ (queue_push_length_le q j h)
    | pop => exact ih _ (le_trans (queue_pop_length_le q) h)

lemma pushedVals_length (ops : List QueueOp) : (pushedVals ops).length = numPush ops := by
  induction ops with
  | nil => rfl
  | cons op ops ih => cases op <;> simp [pushedVals, numPush, ih]

lemma queue_push_no_evict (q : List String) (j : String)
    (h : q.length < AIVORY_MESSAGE_QUEUE_SIZE) : queue_push q j = q ++ [j] := by
  unfold queue_push
  split
  · rename_i hc; omega
  · rfl

lemma popsNonEmpty_count (ops : List QueueOp) :
    ∀ q : List String, popsNonEmpty ops q = true →
      numPop ops ≤ q.length + numPush ops := by
  induction ops with
  | nil => intro q _; simp [numPop]
  | cons op ops ih =>
    intro q h
    cases op with
    | push j =>
      simp only [popsNonEmpty] at h
      have := ih _ h
      have hlen : (queue_push q j).length ≤ q.length + 1 := by
        unfold queue_push
        split <;> simp
      simp only [numPop, numPush]
      omega
    | pop =>
      simp only [popsNonEmpty, Bool.and_eq_true] at h
      obtain ⟨hne, h⟩ := h
      have := ih _ h
      cases q with
      | nil => simp at hne
      | cons x rest =>
        simp only [queue_pop] at this
        simp only [numPop, numPush, List.length_cons]
        omega

lemma queue_run_no_evict (ops : List QueueOp) :
    ∀ q : List String, popsNonEmpty ops q = true → noOverflow ops q = true →
      queue_run ops q = (q ++ pushedVals ops).drop (numPop ops) := by
  induction ops with
  | nil => intro q _ _; simp [queue_run, pushedVals, numPop]
  | cons op ops ih =>
    intro q hp ho
    cases op with
    | push j =>
      simp only [popsNonEmpty] at hp
      simp only [noOverflow, Bool.and_eq_true, decide_eq_true_eq] at ho
      obtain ⟨hlt, ho⟩ := ho
      have hpush := queue_push_no_evict q j hlt
      simp only [queue_run]
      rw [ih _ hp ho, hpush]
      simp [pushedVals, numPop, List.append_assoc]
    | pop =>
      simp only [popsNonEmpty, Bool.and_eq_true] at hp
      obtain ⟨hne, hp⟩ := hp
      simp only [noOverflow] at ho
      cases q with
      | nil => simp at hne
      | cons x rest =>
        simp only [queue_pop] at hp ho
        simp only [queue_run, queue_pop]
        rw [ih rest hp ho]
        simp [pushedVals, numPop, List.drop_succ_cons]

lemma hash_bytes_unsigned_eq_spec (bs : List Nat) :
    ∀ h : Nat, hash_bytes false h bs = spec_hash h bs := by
  induction bs with
  | nil => intro h; rfl
  | cons b bs ih =>
    intro h
    simp only [hash_bytes, spec_hash, hash_step, Bool.false_and, Bool.false_eq_true,
      if_false]
    exact ih _

lemma hash_bytes_ascii (sc : Bool) (bs : List Nat) (hb : ∀ b ∈ bs, b < 128) :
    ∀ h : Nat, hash_bytes sc h bs = spec_hash h bs := by
  induction bs with
  | nil => intro h; rfl
  | cons b bs ih =>
    intro h
    have hb0 : b < 128 := hb b (by simp)
    have hstep : hash_step sc h b = (h * 33 + b) % U64 := by
      simp [hash_step, Nat.not_le.2 hb0]
    simp only [hash_bytes, spec_hash, hstep]
    exact ih (fun b hm => hb b (by simp [hm])) _

lemma spec_hash_append (l1 l2 : List Nat) :
    ∀ h : Nat, spec_hash h (l1 ++ l2) = spec_hash (spec_hash h l1) l2 := by
  induction l1 with
  | nil => intro h; rfl
  | cons b bs ih => intro h; simp only [List.cons_append, spec_hash]; exact ih _

lemma to_hex16_length (h : Nat) : (to_hex16 h).length = 16 := by
  simp [to_hex16]

lemma hex_digit_mem : ∀ m : Nat, m < 16 → hex_digit m ∈ lowercase_hex_chars := by
  decide

lemma to_hex16_mem (h : Nat) : ∀ c ∈ to_hex16 h, c ∈ lowercase_hex_chars := by
  intro c hc
  simp only [to_hex16, List.mem_map, List.mem_range] at hc
  obtain ⟨i, _, rfl⟩ := hc
  exact hex_digit_mem _ (Nat.mod_lt _ (by norm_num))

lemma escape_json_string_ne_nil (s : List Char) (h : s ≠ []) :
    escape_json_string s ≠ [] := by
  cases s with
  | nil => exact absurd rfl h
  | cons c rest =>
    unfold escape_json_string
    split_ifs <;> simp

lemma escape_flatMap (s : List Char) :
    escape_json_string s = s.flatMap escape_char_spec := by
  induction s with
  | nil => rfl
  | cons c rest ih =>
    have hstep : escape_json_string (c :: rest) =
        if c = '"' then '\\' :: '"' :: escape_json_string rest
        else if c = '\\' then '\\' :: '\\' :: escape_json_string rest
        else if c = '\n' then '\\' :: 'n' :: escape_json_string rest
        else if c = '\r' then '\\' :: 'r' :: escape_json_string rest
        else if c = '\t' then '\\' :: 't' :: escape_json_string rest
        else c :: escape_json_string rest := rfl
    rw [List.flatMap_cons, ← ih, hstep]
    unfold escape_char_spec
    split_ifs <;> rfl

lemma unescape_escape (s : List Char) :
    unescape_json (escape_json_string s) = s := by
  induction s with
  | nil => rfl
  | cons c rest ih =>
    unfold escape_json_string
    split_ifs with h1 h2 h3 h4 h5
    · subst h1
      show '"' :: unescape_json (escape_json_string rest) = _
      rw [ih]
    · subst h2
      show '\\' :: unescape_json (escape_json_string rest) = _
      rw [ih]
    · subst h3
      show '\n' :: unescape_json (escape_json_string rest) = _
      rw [ih]
    · subst h4
      show '\r' :: unescape_json (escape_json_string rest) = _
      rw [ih]
    · subst h5
      show '\t' :: unescape_json (escape_json_string rest) = _
      rw [ih]
    · rcases hres : escape_json_string rest with _ | ⟨b, t⟩
      · have hrest : rest = [] := by
          by_contra hne
          exact escape_json_string_ne_nil rest hne hres
        subst hrest
        rfl
      · have hstep : unescape_json (c :: b :: t) =
            if c = '\\' then unescape_char b :: unescape_json t
            else c :: unescape_json (b :: t) := rfl
        rw [hstep, if_neg h2, ← hres, ih]

lemma build_exception_json_decomp
    (agentId message fingerprint backtrace : List Char)
    (file contextJson : Option (List Char))
    (capturedAt environment platform arch timestampMs : List Char) :
    build_exception_json agentId message fingerprint backtrace file contextJson
      capturedAt environment platform arch timestampMs =
    build_exception_head agentId ++ message ++
      build_exception_tail agentId fingerprint backtrace file contextJson
        capturedAt environment platform arch timestampMs := by
  simp only [build_exception_json, build_exception_head, build_exception_tail,
    List.append_assoc]

lemma build_exception_head_pos (agentId : List Char) :
    0 < (build_exception_head agentId).length := by
  simp [build_exception_head]

lemma ws_scheme_strip (rest : List Char) :
    parse_url ("ws://".data ++ rest) = parse_url_after_scheme false 80 rest := by
  have h1 : List.isPrefixOf "wss://".data ("ws://".data ++ rest) = false := by
    show List.isPrefixOf ['w', 's', 's', ':', '/', '/']
      ('w' :: 's' :: ':' :: '/' :: '/' :: rest) = false
    simp [List.isPrefixOf]
  have h2 : List.isPrefixOf "ws://".data ("ws://".data ++ rest) = true := by
    show List.isPrefixOf ['w', 's', ':', '/', '/']
      ('w' :: 's' :: ':' :: '/' :: '/' :: rest) = true
    simp [List.isPrefixOf]
  have h3 : ("ws://".data ++ rest).drop 5 = rest := rfl
  rw [parse_url, h1, h2, h3]
  simp

lemma wss_scheme_strip (rest : List Char) :
    parse_url ("wss://".data ++ rest) = parse_url_after_scheme true 443 rest := by
  have h1 : List.isPrefixOf "wss://".data ("wss://".data ++ rest) = true := by
    show List.isPrefixOf ['w', 's', 's', ':', '/', '/']
      ('w' :: 's' :: 's' :: ':' :: '/' :: '/' :: rest) = true
    simp [List.isPrefixOf]
  have h3 : ("wss://".data ++ rest).drop 6 = rest := rfl
  rw [parse_url, h1, h3]
  simp

lemma host_takeWhile_self (host : List Char)
    (h : ∀ c ∈ host, c ≠ ':' ∧ c ≠ '/') :
    host.takeWhile (fun c => !(c = ':' || c = '/')) = host := by
  rw [List.takeWhile_eq_self_iff]
  intro c hc
  simp [(h c hc).1, (h c hc).2]

lemma host_takeWhile_append (host : List Char) (stop : Char) (t : List Char)
    (h : ∀ c ∈ host, c ≠ ':' ∧ c ≠ '/') (hstop : stop = ':' ∨ stop = '/') :
    (host ++ stop :: t).takeWhile (fun c => !(c = ':' || c = '/')) = host := by
  induction host with
  | nil =>
    rcases hstop with hstop | hstop <;> subst hstop <;> simp [List.takeWhile_cons]
  | cons a rest ih =>
    have ha := h a (by simp)
    simp only [List.cons_append, List.takeWhile_cons]
    rw [if_pos (by simp [ha.1, ha.2])]
    rw [ih (fun c hc => h c (by simp [hc]))]

lemma after_scheme_host_only (ssl : Bool) (dp : Int) (host : List Char)
    (hchars : ∀ c ∈ host, c ≠ ':' ∧ c ≠ '/') (hlen : host.length < 256) :
    parse_url_after_scheme ssl dp host = some (host, dp, "/".data, ssl) := by
  unfold parse_url_after_scheme
  rw [host_takeWhile_self host hchars, if_neg (by omega)]
  simp [List.drop_length]

lemma after_scheme_with_path (ssl : Bool) (dp : Int) (host t : List Char)
    (hchars : ∀ c ∈ host, c ≠ ':' ∧ c ≠ '/') (hlen : host.length < 256) :
    parse_url_after_scheme ssl dp (host ++ '/' :: t) =
      some (host, dp, ('/' :: t).take 511, ssl) := by
  unfold parse_url_after_scheme
  rw [host_takeWhile_append host '/' t hchars (Or.inr rfl), if_neg (by omega),
    List.drop_left]
  simp

lemma after_scheme_with_port (ssl : Bool) (dp : Int) (host rest : List Char)
    (hchars : ∀ c ∈ host, c ≠ ':' ∧ c ≠ '/') (hlen : host.length < 256) :
    parse_url_after_scheme ssl dp (host ++ ':' :: rest) =
      some (host, atoi rest, path_after_port rest, ssl) := by
  unfold parse_url_after_scheme
  rw [host_takeWhile_append host ':' rest hchars (Or.inl rfl), if_neg (by omega),
    List.drop_left]
  simp [path_after_port]

/- ===================================================================
   Claim theorems
   =================================================================== -/

/-- Claim C1 (corrected): for an interleaving in which every pop finds a
nonempty queue and no push ever finds a full queue, the queue holds at
most Q = 100 entries and its live entries are exactly the
most-recently-pushed min(N - M, Q) entries in FIFO order; moreover,
unconditionally, the queue never exceeds Q entries, a push onto a full
queue evicts the head entry and then appends the new entry at the tail,
and a push never rejects the new entry. -/
theorem queue_bound_fifo (ops : List QueueOp)
    (h1 : popsNonEmpty ops [] = true) (h2 : noOverflow ops [] = true) :
    ((queue_run ops []).length ≤ AIVORY_MESSAGE_QUEUE_SIZE ∧
      queue_run ops [] =
        lastN (min (numPush ops - numPop ops) AIVORY_MESSAGE_QUEUE_SIZE)
          (pushedVals ops)) ∧
    (∀ ops2 : List QueueOp,
      (queue_run ops2 []).length ≤ AIVORY_MESSAGE_QUEUE_SIZE) ∧
    (∀ (q : List String) (v : String), q.length = AIVORY_MESSAGE_QUEUE_SIZE →
      queue_push q v = q.drop 1 ++ [v]) ∧
    (∀ (q : List String) (v : String), ∃ q1, queue_push q v = q1 ++ [v]) := by
  have hrun := queue_run_no_evict ops [] h1 h2
  have hlen := queue_run_length_le ops [] (by simp [AIVORY_MESSAGE_QUEUE_SIZE])
  have hcount := popsNonEmpty_count ops [] h1
  simp only [List.nil_append, List.length_nil, Nat.zero_add] at hrun hcount
  refine ⟨⟨hlen, ?_⟩, ?_, ?_, ?_⟩
  · rw [hrun]
    have hle : numPush ops - numPop ops ≤ AIVORY_MESSAGE_QUEUE_SIZE := by
      rw [hrun] at hlen
      simp only [List.length_drop, pushedVals_length] at hlen
      omega
    rw [lastN, pushedVals_length, Nat.min_eq_left hle]
    congr 1
    omega
  · intro ops2
    exact queue_run_length_le ops2 [] (by simp [AIVORY_MESSAGE_QUEUE_SIZE])
  · intro q v hq
    unfold queue_push
    have hne : q ≠ [] := by
      intro h
      rw [h] at hq
      simp [AIVORY_MESSAGE_QUEUE_SIZE] at hq
    rw [if_pos ⟨le_of_eq hq.symm, hne⟩]
  · intro q v
    unfold queue_push
    exact ⟨_, rfl⟩

/-- Witness for queue_bound_fifo at the interleaving
push "a", push "b", pop. -/
theorem queue_bound_fifo_witness :
    popsNonEmpty [QueueOp.push "a", QueueOp.push "b", QueueOp.pop] [] = true ∧
    queue_run [QueueOp.push "a", QueueOp.push "b", QueueOp.pop] [] =
      lastN (min 1 AIVORY_MESSAGE_QUEUE_SIZE) ["a", "b"] :=
  ⟨by decide,
    ((queue_bound_fifo [QueueOp.push "a", QueueOp.push "b", QueueOp.pop]
      (by decide) (by decide)).1.2)⟩

/-- Claim C2 (corrected): the fingerprint is always 16 lowercase hex
characters, zero padded; it equals the 33-multiply / 5381 hash over the
type label followed by the first 500 bytes of the stack trace whenever
all input bytes are below 128 - and then it is independent of the
platform char signedness - and, on an unsigned-char platform, for all
inputs.  (Bytes of 128 or more enter the hash as the platform promoted
char value, so the claimed formula and cross-platform determinism hold
only for 7-bit input.) -/
theorem fingerprint_deterministic_hex (sc : Bool) (type stack : List Nat)
    (ht : ∀ b ∈ type, b < 128) (hs : ∀ b ∈ stack, b < 128) :
    (aivory_calculate_fingerprint sc type stack = spec_fingerprint type stack ∧
      aivory_calculate_fingerprint true type stack =
        aivory_calculate_fingerprint false type stack) ∧
    (∀ (sc2 : Bool) (t2 s2 : List Nat),
      (aivory_calculate_fingerprint sc2 t2 s2).length = 16 ∧
      (∀ c ∈ aivory_calculate_fingerprint sc2 t2 s2, c ∈ lowercase_hex_chars)) ∧
    (∀ t2 s2 : List Nat,
      aivory_calculate_fingerprint false t2 s2 = spec_fingerprint t2 s2) := by
  have key : ∀ sc2 : Bool, aivory_calculate_fingerprint sc2 type stack =
      spec_fingerprint type stack := by
    intro sc2
    unfold aivory_calculate_fingerprint spec_fingerprint
    rw [hash_bytes_ascii sc2 type ht, spec_hash_append,
      hash_bytes_ascii sc2 (stack.take 500)
        (fun b hb => hs b (List.take_subset 500 stack hb))]
  refine ⟨⟨key sc, by rw [key true, key false]⟩, ?_, ?_⟩
  · intro sc2 t2 s2
    exact ⟨to_hex16_length _, to_hex16_mem _⟩
  · intro t2 s2
    unfold aivory_calculate_fingerprint spec_fingerprint
    rw [hash_bytes_unsigned_eq_spec, hash_bytes_unsigned_eq_spec, spec_hash_append]

/-- Witness for fingerprint_deterministic_hex at type = "Er" (bytes 69,
114) and an empty stack trace. -/
theorem fingerprint_deterministic_hex_witness :
    (∀ b ∈ [69, 114], b < 128) ∧
    aivory_calculate_fingerprint true [69, 114] [] =
      spec_fingerprint [69, 114] [] :=
  ⟨by decide,
    (fingerprint_deterministic_hex true [69, 114] [] (by decide)
      (by decide)).1.1⟩

/-- Claim C2 counterexample: on the byte 195 (a non-ASCII byte), the
fingerprint computed with a signed char (the reference x86 platform)
differs both from the h * 33 + b formula of the claim and from the
fingerprint computed with an unsigned char, so the claimed formula and
the any-platform determinism fail. -/
theorem fingerprint_deterministic_hex_counterexample :
    aivory_calculate_fingerprint true [195] [] ≠ spec_fingerprint [195] [] ∧
    aivory_calculate_fingerprint true [195] [] ≠
      aivory_calculate_fingerprint false [195] [] := by
  decide

/-- Claim C6 (confirmed): the escape encoder replaces exactly backslash,
double quote, newline, carriage return and tab with their two-character
escapes and passes every other byte through unchanged (it equals the
per-character substitution escape_char_spec applied across the string),
and decoding the escaped form with unescape_json yields exactly the
input, so the escaping is invertible. -/
theorem escape_roundtrip (s : List Char) :
    escape_json_string s = s.flatMap escape_char_spec ∧
    unescape_json (escape_json_string s) = s ∧
    Function.Injective escape_json_string :=
  ⟨escape_flatMap s, unescape_escape s, fun a b hab => by
    rw [← unescape_escape a, hab, unescape_escape b]⟩

/-- Witness for escape_roundtrip on a string exercising all five escaped
characters. -/
theorem escape_roundtrip_witness :
    escape_json_string "a\"b\\c\nd\re\tf".data =
      ("a\"b\\c\nd\re\tf".data).flatMap escape_char_spec ∧
    unescape_json (escape_json_string "a\"b\\c\nd\re\tf".data) =
      "a\"b\\c\nd\re\tf".data ∧
    Function.Injective escape_json_string :=
  escape_roundtrip "a\"b\\c\nd\re\tf".data

/-- Claim C7 (confirmed): entered with the handling flag already set, the
signal handler performs exactly one action - terminating with exit code
128 + signo - and no capture, assembly or send work; on first entry the
flag is set before any further work (setFlag heads the action trace and
the flag is true on return), and the first entry never exits early. -/
theorem signal_reentry_guard (agentOk recordFits : Bool) (sig : Nat) :
    signal_handler true agentOk recordFits sig =
      ([HandlerAct.exitNow (128 + sig)], true) ∧
    (signal_handler false agentOk recordFits sig).1.head? =
      some HandlerAct.setFlag ∧
    (signal_handler false agentOk recordFits sig).2 = true ∧
    (∀ code, HandlerAct.exitNow code ∉ (signal_handler false agentOk recordFits sig).1) := by
  refine ⟨rfl, ?_, ?_, ?_⟩ <;>
    cases agentOk <;> cases recordFits <;> simp [signal_handler]

/-- Witness for signal_reentry_guard at signal 11 (SIGSEGV). -/
theorem signal_reentry_guard_witness :
    signal_handler true true true 11 = ([HandlerAct.exitNow 139], true) ∧
    (signal_handler false true true 11).1.head? = some HandlerAct.setFlag ∧
    (signal_handler false true true 11).2 = true ∧
    (∀ code, HandlerAct.exitNow code ∉ (signal_handler false true true 11).1) :=
  signal_reentry_guard true true 11

/-- Claim C8 (confirmed): should_sample returns true whenever the
sampling rate is at least 1, false whenever it is at most 0, and only
for rates strictly between 0 and 1 does the result depend on the
pseudo-random draw, accepting exactly when the draw is below the rate. -/
theorem should_sample_spec (r d : ℚ) :
    (1 ≤ r → aivory_should_sample r d = true) ∧
    (r ≤ 0 → aivory_should_sample r d = false) ∧
    (0 < r → r < 1 → aivory_should_sample r d = decide (d < r)) := by
  refine ⟨fun h => ?_, fun h => ?_, fun h0 h1 => ?_⟩ <;>
    simp only [aivory_should_sample]
  · rw [if_pos h]
  · rw [if_neg (by linarith), if_pos h]
  · rw [if_neg (by linarith), if_neg (by linarith)]

/-- Witness for should_sample_spec at rates 2, -1 and 1/2 (draw 1/4). -/
theorem should_sample_spec_witness :
    aivory_should_sample 2 0 = true ∧
    aivory_should_sample (-1) 0 = false ∧
    aivory_should_sample (1/2) (1/4) = true := by
  refine ⟨(should_sample_spec 2 0).1 (by norm_num),
    (should_sample_spec (-1) 0).2.1 (by norm_num), ?_⟩
  rw [(should_sample_spec (1/2) (1/4)).2.2 (by norm_num) (by norm_num)]
  norm_num

/-- Claim C5 (corrected): the transition to AUTHENTICATED on receipt of a
"registered" frame sets the state and the authenticated flag but leaves
the reconnect attempt counter untouched; no event of the transport ever
decreases the counter (only the backoff pass changes it, by one
increment), so the worker never regains its budget of 10 attempts. -/
theorem authenticated_attempts_amended (c : WsConn) :
    (ws_step c WsEvent.receiveRegistered).state = ConnState.authenticated ∧
    (ws_step c WsEvent.receiveRegistered).authenticated = true ∧
    (ws_step c WsEvent.receiveRegistered).reconnect_attempts =
      c.reconnect_attempts ∧
    (∀ e : WsEvent, c.reconnect_attempts ≤ (ws_step c e).reconnect_attempts) ∧
    (ws_step c WsEvent.backoffTick).reconnect_attempts =
      c.reconnect_attempts + 1 ∧
    (backoff_gives_up c =
      decide (AIVORY_MAX_RECONNECT_ATTEMPTS < c.reconnect_attempts + 1)) := by
  refine ⟨rfl, rfl, rfl, ?_, rfl, rfl⟩
  intro e
  cases e <;> simp [ws_step]

/-- Witness for authenticated_attempts_amended at a zeroed connection. -/
theorem authenticated_attempts_amended_witness :
    (ws_step
      { state := ConnState.disconnected, authenticated := false,
        should_stop := false, reconnect_attempts := 0 }
      WsEvent.receiveRegistered).state = ConnState.authenticated ∧
    (ws_step
      { state := ConnState.disconnected, authenticated := false,
        should_stop := false, reconnect_attempts := 0 }
      WsEvent.receiveRegistered).authenticated = true ∧
    (ws_step
      { state := ConnState.disconnected, authenticated := false,
        should_stop := false, reconnect_attempts := 0 }
      WsEvent.receiveRegistered).reconnect_attempts = 0 ∧
    (∀ e : WsEvent, 0 ≤ (ws_step
      { state := ConnState.disconnected, authenticated := false,
        should_stop := false, reconnect_attempts := 0 } e).reconnect_attempts) ∧
    (ws_step
      { state := ConnState.disconnected, authenticated := false,
        should_stop := false, reconnect_attempts := 0 }
      WsEvent.backoffTick).reconnect_attempts = 0 + 1 ∧
    (backoff_gives_up
      { state := ConnState.disconnected, authenticated := false,
        should_stop := false, reconnect_attempts := 0 } =
      decide (AIVORY_MAX_RECONNECT_ATTEMPTS < 0 + 1)) :=
  authenticated_attempts_amended
    { state := ConnState.disconnected, authenticated := false,
      should_stop := false, reconnect_attempts := 0 }

/-- Claim C5 counterexample: from a connection record with 3 reconnect
attempts already used, the AUTHENTICATED transition succeeds but the
attempt counter stays at 3 instead of being reset to zero. -/
theorem authenticated_attempts_counterexample :
    (ws_step
      { state := ConnState.connected, authenticated := false,
        should_stop := false, reconnect_attempts := 3 }
      WsEvent.receiveRegistered).state = ConnState.authenticated ∧
    (ws_step
      { state := ConnState.connected, authenticated := false,
        should_stop := false, reconnect_attempts := 3 }
      WsEvent.receiveRegistered).reconnect_attempts ≠ 0 := by
  decide

/-- Claim C10 (confirmed): aivory_init on an already-initialized agent
returns -1 and leaves the whole agent state (configuration, identity,
connection) unchanged, whatever configuration is passed. -/
theorem init_already_initialized (s : AgentState) (cfg : Option AivoryConfig)
    (newId newHost : List Char) (wsOk : Bool) (h : s.initialized = true) :
    aivory_init s cfg newId newHost wsOk = (-1, s) := by
  unfold aivory_init
  rw [if_pos h]

/-- Witness for init_already_initialized on an initialized agent state. -/
theorem init_already_initialized_witness :
    ({ g_agent_zero with initialized := true } : AgentState).initialized = true ∧
    aivory_init { g_agent_zero with initialized := true } none [] [] false =
      (-1, { g_agent_zero with initialized := true }) :=
  ⟨rfl, init_already_initialized _ none [] [] false rfl⟩

/-- Claim C3 (corrected): the report builder does not truncate string
fields at all - every field, in particular the message, is embedded in
the record verbatim whatever its length, with no truncation marker - and
the assembled record is handed to the transport exactly when its total
encoded length is below the 65536-byte buffer, so an oversized record is
silently dropped rather than shipped truncated. -/
theorem builder_truncation_amended (agentId message fingerprint backtrace : List Char)
    (file contextJson : Option (List Char))
    (capturedAt environment platform arch timestampMs : List Char) :
    (∃ pre suf,
      build_exception_json agentId message fingerprint backtrace file contextJson
        capturedAt environment platform arch timestampMs = pre ++ message ++ suf) ∧
    (record_ships
        (build_exception_json agentId message fingerprint backtrace file
          contextJson capturedAt environment platform arch timestampMs) = true ↔
      (build_exception_json agentId message fingerprint backtrace file
          contextJson capturedAt environment platform arch timestampMs).length <
        65536) := by
  have hdec := build_exception_json_decomp agentId message fingerprint backtrace
    file contextJson capturedAt environment platform arch timestampMs
  have hpos : 0 < (build_exception_json agentId message fingerprint backtrace
      file contextJson capturedAt environment platform arch timestampMs).length := by
    rw [hdec]
    simp only [List.length_append]
    have := build_exception_head_pos agentId
    omega
  constructor
  · exact ⟨build_exception_head agentId,
      build_exception_tail agentId fingerprint backtrace file contextJson
        capturedAt environment platform arch timestampMs, hdec⟩
  · simp only [record_ships, Bool.and_eq_true, decide_eq_true_eq]
    exact ⟨fun h => h.2, fun h => ⟨hpos, h⟩⟩

/-- Claim C3 counterexample: with the default maximum string length 1000,
a 1001-character message is embedded in the record whole (no truncation,
no marker), and a 70000-character message makes the assembled record
exceed the 65536-byte buffer, in which case the record is not sent at
all - contradicting both the claimed truncation and the claim that the
record still ships. -/
theorem builder_truncation_counterexample :
    AIVORY_DEFAULT_MAX_STRING_LENGTH < (List.replicate 1001 'a').length ∧
    (∃ pre suf,
      build_exception_json "agent-1".data (List.replicate 1001 'a') "fp".data
        "[]".data none none "2026-01-01T00:00:00Z".data "production".data
        "linux".data "x86_64".data "0".data =
        pre ++ List.replicate 1001 'a' ++ suf) ∧
    record_ships
      (build_exception_json "agent-1".data (List.replicate 70000 'a') "fp".data
        "[]".data none none "2026-01-01T00:00:00Z".data "production".data
        "linux".data "x86_64".data "0".data) = false := by
  refine ⟨by rw [List.length_replicate]; decide, ?_, ?_⟩
  · exact ⟨build_exception_head "agent-1".data,
      build_exception_tail "agent-1".data "fp".data "[]".data none none
        "2026-01-01T00:00:00Z".data "production".data "linux".data
        "x86_64".data "0".data,
      build_exception_json_decomp "agent-1".data (List.replicate 1001 'a')
        "fp".data "[]".data none none "2026-01-01T00:00:00Z".data
        "production".data "linux".data "x86_64".data "0".data⟩
  · have hge : 65536 ≤ (build_exception_json "agent-1".data
        (List.replicate 70000 'a') "fp".data "[]".data none none
        "2026-01-01T00:00:00Z".data "production".data "linux".data
        "x86_64".data "0".data).length := by
      rw [build_exception_json_decomp]
      simp only [List.length_append, List.length_replicate]
      omega
    have hn : ¬ ((build_exception_json "agent-1".data
        (List.replicate 70000 'a') "fp".data "[]".data none none
        "2026-01-01T00:00:00Z".data "production".data "linux".data
        "x86_64".data "0".data).length < 65536) := by omega
    unfold record_ships
    rw [decide_eq_false hn, Bool.and_false]

/-- Witness for builder_truncation_amended at concrete small fields. -/
theorem builder_truncation_amended_witness :
    (∃ pre suf,
      build_exception_json "a".data "msg".data "f".data "[]".data none none
        "t".data "e".data "linux".data "x64".data "0".data =
        pre ++ "msg".data ++ suf) ∧
    (record_ships
        (build_exception_json "a".data "msg".data "f".data "[]".data none none
          "t".data "e".data "linux".data "x64".data "0".data) = true ↔
      (build_exception_json "a".data "msg".data "f".data "[]".data none none
        "t".data "e".data "linux".data "x64".data "0".data).length < 65536) :=
  builder_truncation_amended "a".data "msg".data "f".data "[]".data none none
    "t".data "e".data "linux".data "x64".data "0".data

/-- Claim C4 (corrected): with the agent not yet initialized, a NULL
configuration or a missing or empty API key makes aivory_init fail
synchronously with -1 and leaves the agent state (hence its resources)
unchanged; but a malformed backend URL is not checked by aivory_init:
init then succeeds with 0 and allocates identity, handlers and the
transport, and the malformed URL is only detected by the transport
worker at startup, which exits before any connect attempt. -/
theorem init_config_error_amended (s : AgentState) (cfg : AivoryConfig)
    (newId newHost : List Char) (wsOk : Bool) (hinit : s.initialized = false) :
    (aivory_init s none newId newHost wsOk = (-1, s)) ∧
    (api_key_missing cfg →
      aivory_init s (some cfg) newId newHost wsOk = (-1, s)) ∧
    (¬ api_key_missing cfg →
      (aivory_init s (some cfg) newId newHost wsOk).1 = 0 ∧
      (aivory_init s (some cfg) newId newHost wsOk).2.initialized = true ∧
      (aivory_init s (some cfg) newId newHost wsOk).2.agent_id = some newId) ∧
    (parse_url cfg.backend_url = none →
      ws_thread_startup cfg.backend_url = WsThreadStart.invalid_url) := by
  refine ⟨?_, ?_, ?_, ?_⟩
  · simp [aivory_init, hinit]
  · intro hm
    rcases hm with hm | hm <;> simp [aivory_init, hinit, hm]
  · intro hm
    rw [api_key_missing, not_or] at hm
    obtain ⟨hm1, hm2⟩ := hm
    cases hk : cfg.api_key with
    | none => exact absurd hk hm1
    | some key =>
      have hke : ¬ key = [] := by
        intro h
        exact hm2 (by rw [hk, h])
      simp [aivory_init, hinit, hk, hke]
  · intro hp
    unfold ws_thread_startup
    rw [hp]

/-- Witness for init_config_error_amended on the zero agent state and a
configuration with an empty API key. -/
theorem init_config_error_amended_witness :
    g_agent_zero.initialized = false ∧
    api_key_missing
      { api_key := some [], backend_url := "ws://h/".data,
        environment := "production".data, sampling_rate := 1,
        max_capture_depth := 10, max_string_length := 1000,
        max_collection_size := 100, debug := false, capture_signals := true } ∧
    aivory_init g_agent_zero
      (some { api_key := some [], backend_url := "ws://h/".data,
              environment := "production".data, sampling_rate := 1,
              max_capture_depth := 10, max_string_length := 1000,
              max_collection_size := 100, debug := false,
              capture_signals := true })
      "agent-1".data "host".data true = (-1, g_agent_zero) :=
  ⟨rfl, Or.inr rfl,
    (init_config_error_amended g_agent_zero
      { api_key := some [], backend_url := "ws://h/".data,
        environment := "production".data, sampling_rate := 1,
        max_capture_depth := 10, max_string_length := 1000,
        max_collection_size := 100, debug := false, capture_signals := true }
      "agent-1".data "host".data true rfl).2.1 (Or.inr rfl)⟩

/-- Claim C4 counterexample: with a nonempty API key and the malformed
backend URL http://x (scheme neither ws nor wss), aivory_init does not
fail: it returns 0 and leaves the agent fully allocated (initialized,
identity and connection set), even though parse_url rejects the URL. -/
theorem init_config_error_counterexample :
    parse_url "http://x".data = none ∧
    aivory_init g_agent_zero
      (some { api_key := some "k".data, backend_url := "http://x".data,
              environment := "production".data, sampling_rate := 1,
              max_capture_depth := 10, max_string_length := 1000,
              max_collection_size := 100, debug := false,
              capture_signals := true })
      "agent-1".data "host".data true =
      (0, { initialized := true,
            config := some { api_key := some "k".data,
                             backend_url := "http://x".data,
                             environment := "production".data,
                             sampling_rate := 1, max_capture_depth := 10,
                             max_string_length := 1000,
                             max_collection_size := 100, debug := false,
                             capture_signals := true },
            agent_id := some "agent-1".data, hostname := some "host".data,
            custom_context := none, user_json := none,
            handlers_installed := true, connection := true }) := by
  constructor
  · decide
  · decide

/-- Claim C9 (corrected): for hosts shorter than 256 bytes (longer hosts
overflow the host buffer and are rejected), the parser accepts ws:// with
default port 80 and TLS off and wss:// with default port 443 and TLS on,
an explicit :port overrides the default (the port is whatever atoi reads
after the colon), an explicit path is preserved up to its first 511
bytes (longer paths are truncated by the 512-byte path buffer) and
otherwise / is used; any other scheme is rejected; and the two concrete
examples of the claim parse as stated. -/
theorem parse_url_amended (host : List Char)
    (hchars : ∀ c ∈ host, c ≠ ':' ∧ c ≠ '/') (hlen : host.length < 256) :
    (parse_url "wss://host.example:7443/api/v1".data =
      some ("host.example".data, 7443, "/api/v1".data, true)) ∧
    (parse_url "ws://h/".data = some ("h".data, 80, "/".data, false)) ∧
    (∀ url : List Char, List.isPrefixOf "ws://".data url = false →
      List.isPrefixOf "wss://".data url = false → parse_url url = none) ∧
    (parse_url ("ws://".data ++ host) = some (host, 80, "/".data, false)) ∧
    (parse_url ("wss://".data ++ host) = some (host, 443, "/".data, true)) ∧
    (∀ t : List Char, parse_url ("ws://".data ++ host ++ '/' :: t) =
      some (host, 80, ('/' :: t).take 511, false)) ∧
    (∀ rest : List Char, parse_url ("ws://".data ++ host ++ ':' :: rest) =
      some (host, atoi rest, path_after_port rest, false)) := by
  refine ⟨by decide, by decide, ?_, ?_, ?_, ?_, ?_⟩
  · intro url h1 h2
    rw [parse_url, h2, h1]
    simp
  · rw [ws_scheme_strip]
    exact after_scheme_host_only false 80 host hchars hlen
  · rw [wss_scheme_strip]
    exact after_scheme_host_only true 443 host hchars hlen
  · intro t
    rw [List.append_assoc, ws_scheme_strip]
    exact after_scheme_with_path false 80 host t hchars hlen
  · intro rest
    rw [List.append_assoc, ws_scheme_strip]
    exact after_scheme_with_port false 80 host rest hchars hlen

/-- Witness for parse_url_amended with host "hx". -/
theorem parse_url_amended_witness :
    (∀ c ∈ "hx".data, c ≠ ':' ∧ c ≠ '/') ∧
    parse_url ("ws://".data ++ "hx".data) =
      some ("hx".data, 80, "/".data, false) :=
  ⟨by decide, (parse_url_amended "hx".data (by decide) (by decide)).2.2.2.1⟩

/-- Claim C9 counterexample: a ws:// URL whose host is 256 bytes long is
rejected by the parser (the host would overflow the 256-byte buffer),
although the claim promises that every ws:// URL is accepted with
default port 80. -/
theorem parse_url_counterexample :
    parse_url ("ws://".data ++ List.replicate 256 'h') = none := by
  rw [ws_scheme_strip]
  unfold parse_url_after_scheme
  rw [host_takeWhile_self]
  · rw [if_pos (by simp only [List.length_replicate, le_refl])]
  · intro c hc
    rw [List.eq_of_mem_replicate hc]
    decide

/-- Claim C1 counterexample: in the interleaving pop, push "a" (a pop on
the empty queue, then one push) the queue ends as ["a"], but
min(N - M, Q) = min(0, 100) = 0, so the live entries are not the
most-recently-pushed min(N - M, Q) entries. -/
theorem queue_bound_fifo_counterexample :
    queue_run [QueueOp.pop, QueueOp.push "a"] [] ≠
      lastN (min (numPush [QueueOp.pop, QueueOp.push "a"] -
                  numPop [QueueOp.pop, QueueOp.push "a"])
              AIVORY_MESSAGE_QUEUE_SIZE)
        (pushedVals [QueueOp.pop, QueueOp.push "a"]) := by
  decide
